import Mathlib

/-!
Verification of the latency-based IP geolocation engine (Triangula).

The Go source (`main.go`) is shallowly embedded here:
* `time.Duration` values (int64 nanoseconds) become `ℤ`;
* `float64` quantities whose manipulation is purely field arithmetic
  (distances, weights, latitude/longitude averaging) become `ℚ`, computed
  exactly; `float64` quantities flowing through transcendental functions
  (the spherical geometry kernel) become `ℝ` with `Real.cos` / `Real.sin` /
  `Complex.arg` playing the role of `math.Cos` / `math.Sin` / `math.Atan2`;
* the Go `int64` division (truncation toward zero, used by
  `Duration.Milliseconds` and by `Duration` division) becomes `Int.tdiv`;
* the concurrent probe fan-out of `main` is embedded as a deterministic
  fold over the catalog in catalog order: goroutine completion order is
  nondeterministic in the source, but the properties stated below (result
  counts, membership, per-element invariants) are invariant under
  permutation of the collected results;
* `sort.Slice` (documented by Go as *not* guaranteed to be stable) and the
  iteration over a Go `map` (unspecified, randomized order) are embedded as
  relations admitting every outcome their contracts admit.
-/

namespace Triangula

/-- One reference node of the catalog (`Server` in the source). -/
structure Server where
  Name : String
  IP : String
  Country : String
  City : String
  Lat : ℚ
  Lon : ℚ
  AvgRTT : ℤ
deriving DecidableEq

/-- One successful probe outcome (`Result` in the source). `Delta` is a
`time.Duration` in nanoseconds, `Distance` the estimated kilometres. -/
structure Result where
  Server : Server
  Delta : ℤ
  Distance : ℚ
deriving DecidableEq

/-- A position estimate (`Location` in the source), as produced by the
real-valued trilateration solver. -/
structure Location where
  Lat : ℝ
  Lon : ℝ

/-- Constant `speedOfLight = 299792.458` (km/s) from the constant block of the source. -/
def speedOfLight : ℚ := 299792.458

/-- Constant `fiberSpeed = speedOfLight * 0.67` from the constant block of the source. -/
def fiberSpeed : ℚ := speedOfLight * 0.67

/-- Constant `earthRadius = 6371.0` (km) from the constant block of the source. -/
def earthRadius : ℝ := 6371.0

/-- The Go `Duration.Milliseconds()` operation: the duration in nanoseconds divided by
`1e6` with truncation toward zero (`int64` division). -/
def durMilliseconds (d : ℤ) : ℤ := Int.tdiv d 1000000

/-- Function `rttToDistance` from the source: `rtt.Seconds() * fiberSpeed / 2`,
where `Seconds()` is the nanosecond count divided by `1e9`. -/
def rttToDistance (rtt : ℤ) : ℚ := ((rtt : ℚ) / 1000000000) * fiberSpeed / 2

/-- The body of one probing goroutine of `main` after a successful
`AvgPing`: the `AvgRTT` field of the server is filled in, the delta is the
absolute difference `|avg - targetRTT|`, and the distance estimate is
`rttToDistance delta`. -/
def mkResult (server : Server) (avg targetRTT : ℤ) : Result :=
  let delta0 := avg - targetRTT
  let delta := if delta0 < 0 then -delta0 else delta0
  { Server := { server with AvgRTT := avg }
    Delta := delta
    Distance := rttToDistance delta }

/-- The probe fan-out of `main`: every catalog server is probed; a probe
error contributes nothing (the goroutine returns after logging); a success
appends `mkResult`.  The source collects the appends in nondeterministic
completion order under a mutex; this embedding lists them in catalog
order, which is harmless for the count/membership properties proved
below. -/
def orchestrate (probe : Server → Option ℤ) (targetRTT : ℤ)
    (servers : List Server) : List Result :=
  servers.filterMap (fun s => (probe s).map (fun avg => mkResult s avg targetRTT))

/-- The abort structure of `main` around the fan-out: if the target probe
errs the run aborts before any fan-out; after the fan-out, an empty result
collection aborts with "no server answered"; otherwise the collected
results flow on to ranking and display. -/
def runMain (targetProbe : Option ℤ) (probe : Server → Option ℤ)
    (servers : List Server) : Option (List Result) :=
  match targetProbe with
  | none => none
  | some t =>
    let results := orchestrate probe t servers
    if results.length = 0 then none else some results

/-- Function `geoToCartesian` from the source: degrees to radians, then the point on
the sphere of radius `earthRadius` in Earth-centred Cartesian
coordinates. -/
noncomputable def geoToCartesian (lat lon : ℝ) : ℝ × ℝ × ℝ :=
  let latRad := lat * Real.pi / 180
  let lonRad := lon * Real.pi / 180
  (earthRadius * Real.cos latRad * Real.cos lonRad,
   earthRadius * Real.cos latRad * Real.sin lonRad,
   earthRadius * Real.sin latRad)

/-- The Go `math.Atan2 y x`, embedded as the principal argument of the complex
number `x + y·i` (range `(-π, π]`, `atan2 0 0 = 0`, matching Go). -/
noncomputable def atan2 (y x : ℝ) : ℝ := Complex.arg (x + y * Complex.I)

/-- Function `cartesianToGeo` from the source: longitude via `atan2 y x`, latitude
via `atan2 z (sqrt (x*x + y*y))`, both converted back to degrees. -/
noncomputable def cartesianToGeo (x y z : ℝ) : ℝ × ℝ :=
  let lon := atan2 y x * 180 / Real.pi
  let hyp := Real.sqrt (x * x + y * y)
  let lat := atan2 z hyp * 180 / Real.pi
  (lat, lon)

/-- Composition checked by the round-trip property: geographic to
Cartesian and back. -/
noncomputable def geoRoundTrip (lat lon : ℝ) : ℝ × ℝ :=
  let p := geoToCartesian lat lon
  cartesianToGeo p.1 p.2.1 p.2.2

/-- The weight `1.0 / (d + 1.0)` given to a reference point at estimated
distance `d` inside `trilaterate`. -/
noncomputable def triWeight (d : ℝ) : ℝ := 1 / (d + 1)

/-- Function `trilaterate` from the source: the coordinates of the three servers go to
Cartesian, each point gets weight `triWeight dᵢ`, the weighted centroid is
rescaled to length `earthRadius` and converted back to geographic
coordinates. -/
noncomputable def trilaterate (s1 s2 s3 : Server) (d1 d2 d3 : ℝ) : Location :=
  let p1 := geoToCartesian (s1.Lat : ℝ) (s1.Lon : ℝ)
  let p2 := geoToCartesian (s2.Lat : ℝ) (s2.Lon : ℝ)
  let p3 := geoToCartesian (s3.Lat : ℝ) (s3.Lon : ℝ)
  let w1 := triWeight d1
  let w2 := triWeight d2
  let w3 := triWeight d3
  let totalWeight := w1 + w2 + w3
  let xEst := (p1.1 * w1 + p2.1 * w2 + p3.1 * w3) / totalWeight
  let yEst := (p1.2.1 * w1 + p2.2.1 * w2 + p3.2.1 * w3) / totalWeight
  let zEst := (p1.2.2 * w1 + p2.2.2 * w2 + p3.2.2 * w3) / totalWeight
  let nrm := Real.sqrt (xEst * xEst + yEst * yEst + zEst * zEst)
  let g := cartesianToGeo (xEst / nrm * earthRadius) (yEst / nrm * earthRadius)
    (zEst / nrm * earthRadius)
  { Lat := g.1, Lon := g.2 }

/-- The weight `1.0 / (float64(delta.Milliseconds()) + 1.0)` given to a
ranked entry with delta `d` (nanoseconds) inside
`multilateralTriangulation`. -/
def multiWeight (d : ℤ) : ℚ := 1 / ((durMilliseconds d : ℚ) + 1)

/-- Function `multilateralTriangulation` from the source: fewer than 3 results give
the `(0,0)` sentinel; the requested server count is clamped down to the
list length; each of the first `numServers` entries contributes its
latitude and longitude with weight `multiWeight`; the weighted sums are
divided by the total weight.  The accumulation loop of the source is rendered
as sums over the `take`n prefix. -/
def multilateralTriangulation (results : List Result) (numServers : ℤ) : ℚ × ℚ :=
  if results.length < 3 then (0, 0)
  else
    let n : ℤ := if numServers > (results.length : ℤ) then (results.length : ℤ) else numServers
    let entries := results.take n.toNat
    let totalLat := (entries.map (fun r => r.Server.Lat * multiWeight r.Delta)).sum
    let totalLon := (entries.map (fun r => r.Server.Lon * multiWeight r.Delta)).sum
    let totalWeight := (entries.map (fun r => multiWeight r.Delta)).sum
    (totalLat / totalWeight, totalLon / totalWeight)

/-- The location-producing skeleton of `displayTriangulation` from the
source: with fewer than 3 results it prints an error and returns early,
producing no position estimate at all (`none` here); otherwise it emits
the trilateration of the three best entries together with the
multilateration of the top `min 10 len` entries. -/
noncomputable def triangulationLocations (results : List Result) :
    Option (Location × (ℚ × ℚ)) :=
  match results with
  | r1 :: r2 :: r3 :: _ =>
    let numServers : ℤ := if results.length < 10 then (results.length : ℤ) else 10
    some (trilaterate r1.Server r2.Server r3.Server
            (r1.Distance : ℝ) (r2.Distance : ℝ) (r3.Distance : ℝ),
          multilateralTriangulation results numServers)
  | _ => none

/-- Non-decreasing deltas, the postcondition `sort.Slice` establishes for
the comparison `results[i].Delta < results[j].Delta` of `main`. -/
def sortedByDelta (l : List Result) : Prop :=
  List.Pairwise (fun a b => a.Delta ≤ b.Delta) l

instance : DecidablePred sortedByDelta := fun l =>
  List.instDecidablePairwise l

/-- The ranking step of `main`, `sort.Slice(results, Delta i < Delta j)`,
embedded as the relation its contract guarantees: the output is a
permutation of the input ordered by non-decreasing delta.  Go documents
`sort.Slice` as **not** guaranteed to be stable, so every sorted
permutation is an admissible outcome. -/
def rankRel (l l' : List Result) : Prop := l'.Perm l ∧ sortedByDelta l'

instance (l l' : List Result) : Decidable (rankRel l l') := by
  unfold rankRel; infer_instance

/-- The per-country tally of `displayStatistics`, in *first-encounter*
order: the content (but not the iteration order) of the Go map
`countryStats`. -/
def addCountry : List (String × ℕ) → String → List (String × ℕ)
  | [], c => [(c, 1)]
  | (c', n) :: rest, c =>
    if c' = c then (c', n + 1) :: rest else (c', n) :: addCountry rest c

/-- The country tallies accumulated over the whole result list. -/
def countryCounts (results : List Result) : List (String × ℕ) :=
  results.foldl (fun acc r => addCountry acc r.Server.Country) []

/-- The count recorded for country `c` in a tally list. -/
def countOf (c : String) (l : List (String × ℕ)) : ℕ :=
  ((l.filter (fun p => p.1 = c)).map (fun p => p.2)).sum

/-- The presentation order of the country tallies in `displayStatistics`:
the tallies are read out of a Go `map` (iteration order unspecified and
randomized) and sorted descending by count with `sort.Slice` (unstable),
so every descending-by-count permutation of the tallies is an admissible
output. -/
def statsPresentRel (results : List Result) (out : List (String × ℕ)) : Prop :=
  out.Perm (countryCounts results) ∧ List.Pairwise (fun a b => b.2 ≤ a.2) out

instance (results : List Result) (out : List (String × ℕ)) :
    Decidable (statsPresentRel results out) := by
  unfold statsPresentRel; infer_instance

/-- The mean-RTT line of `displayStatistics`: the sum of the server
average RTTs divided by the number of results with `time.Duration`
(`int64`, truncation toward zero) division. -/
def avgRTTStat (results : List Result) : ℤ :=
  Int.tdiv ((results.map (fun r => r.Server.AvgRTT)).sum) (results.length : ℤ)

/-- The guarded summary step of `displayStatistics`: empty input is a
no-op (the function returns before computing anything); otherwise it
produces the country tallies (map content, first-encounter order) and the
truncated mean RTT. -/
def summarize (results : List Result) : Option (List (String × ℕ) × ℤ) :=
  if results.length = 0 then none
  else some (countryCounts results, avgRTTStat results)

/-- The Multilateration Solver as §4.6 of the spec words it, for
comparison with `multilateralTriangulation`: each entry weighted as
`1/(delta_in_ms + 1)`, then the weighted arithmetic mean of latitude and
of longitude. -/
def weightedMeanSpec (entries : List Result) : ℚ × ℚ :=
  ((entries.map (fun r => r.Server.Lat * multiWeight r.Delta)).sum /
     (entries.map (fun r => multiWeight r.Delta)).sum,
   (entries.map (fun r => r.Server.Lon * multiWeight r.Delta)).sum /
     (entries.map (fun r => multiWeight r.Delta)).sum)

/-- A two-node demo catalog used by concrete witnesses: the probe answers
for `demoNodeA` and fails for `demoNodeB`. -/
def demoNodeA : Server := ⟨"A", "1.1.1.1", "France", "Paris", 48, 2, 0⟩

def demoNodeB : Server := ⟨"B", "9.9.9.9", "UK", "London", 51, 0, 0⟩

def demoProbe : Server → Option ℤ := fun s => if s.Name = "A" then some 100 else none

/-- Two measurements with *equal* deltas but different servers. -/
def demoTieX : Result := ⟨demoNodeA, 5000000, 0⟩

def demoTieY : Result := ⟨demoNodeB, 5000000, 0⟩

/-- Two measurements with distinct deltas. -/
def demoD1 : Result := ⟨demoNodeA, 1000000, 0⟩

def demoD2 : Result := ⟨demoNodeB, 2000000, 0⟩

/-- A two-element result list (too short for triangulation). -/
def demoPair : List Result := [demoD1, demoD2]

/-- The concrete multilateration scenario of spec §8: top-2 entries with
deltas 10 ms and 40 ms at Paris and London coordinates (a third entry
makes the list long enough for the solver to run). -/
def demoTop2 : List Result :=
  [⟨⟨"Paris", "", "France", "Paris", 48.8566, 2.3522, 0⟩, 10000000, 0⟩,
   ⟨⟨"London", "", "UK", "London", 51.5074, -0.1278, 0⟩, 40000000, 0⟩,
   ⟨⟨"X", "", "X", "X", 0, 0, 0⟩, 100000000, 0⟩]

/-- Three results with integer coordinates and nonnegative deltas, small
enough for every hypothesis about them to be decided by evaluation. -/
def demoInt3 : List Result :=
  [⟨⟨"P", "", "France", "Paris", 48, 2, 10⟩, 10000000, 5⟩,
   ⟨⟨"Q", "", "UK", "London", 51, 0, 20⟩, 40000000, 6⟩,
   ⟨⟨"R", "", "Spain", "Madrid", 40, -3, 30⟩, 100000000, 7⟩]

/-- Two results whose servers have average RTTs 1 ns and 2 ns and
distinct country labels, for the statistics counterexample. -/
def demoStats : List Result :=
  [⟨⟨"A", "", "France", "Paris", 48, 2, 1⟩, 0, 0⟩,
   ⟨⟨"B", "", "UK", "London", 51, 0, 2⟩, 0, 0⟩]

/-- The symmetric trilateration scenario of spec §8: three nodes on the
equator at longitudes 0, 90 and -90. -/
def demoEqA : Server := ⟨"EqA", "", "", "", 0, 0, 0⟩

def demoEqB : Server := ⟨"EqB", "", "", "", 0, 90, 0⟩

def demoEqC : Server := ⟨"EqC", "", "", "", 0, -90, 0⟩

lemma orchestrate_length_add (probe : Server → Option ℤ) (t : ℤ) (servers : List Server) :
    (orchestrate probe t servers).length
      + (servers.filter (fun s => (probe s).isNone)).length = servers.length := by
  induction servers with
  | nil => rfl
  | cons s ss ih =>
    unfold orchestrate at ih ⊢
    cases hp : probe s with
    | none =>
      simp only [List.filterMap_cons, hp, Option.map_none', List.filter_cons,
        Option.isNone_none, if_true, List.length_cons]
      omega
    | some avg =>
      simp only [List.filterMap_cons, hp, Option.map_some', List.filter_cons,
        Option.isNone_some, Bool.false_eq_true, if_false, List.length_cons]
      omega

/-- C1: if the target probe succeeds and exactly `K < N` of the `N`
catalog probes fail, the run does not abort: it returns the collected
results, there are exactly `N − K` of them, and every one of them stems
from a successful probe of a catalog server (failed probes contribute
nothing; there is no retry). -/
theorem orchestrator_tolerates_probe_failures (targetProbe : Option ℤ)
    (probe : Server → Option ℤ) (servers : List Server) (t : ℤ)
    (ht : targetProbe = some t)
    (hK : (servers.filter (fun s => (probe s).isNone)).length < servers.length) :
    runMain targetProbe probe servers = some (orchestrate probe t servers) ∧
    (orchestrate probe t servers).length
      = servers.length - (servers.filter (fun s => (probe s).isNone)).length ∧
    ∀ r ∈ orchestrate probe t servers,
      ∃ s ∈ servers, ∃ avg, probe s = some avg ∧ r = mkResult s avg t := by
  subst ht
  have hadd := orchestrate_length_add probe t servers
  refine ⟨?_, by omega, ?_⟩
  · have hne : (orchestrate probe t servers).length ≠ 0 := by omega
    simp only [runMain]
    exact if_neg hne
  · intro r hr
    simp only [orchestrate, List.mem_filterMap] at hr
    obtain ⟨s, hs, hmap⟩ := hr
    rw [Option.map_eq_some'] at hmap
    obtain ⟨avg, hpr, hmk⟩ := hmap
    exact ⟨s, hs, avg, hpr, hmk.symm⟩

theorem orchestrator_tolerates_probe_failures_witness :
    runMain (some 50) demoProbe [demoNodeA, demoNodeB]
      = some (orchestrate demoProbe 50 [demoNodeA, demoNodeB]) ∧
    (orchestrate demoProbe 50 [demoNodeA, demoNodeB]).length
      = [demoNodeA, demoNodeB].length
        - ([demoNodeA, demoNodeB].filter (fun s => (demoProbe s).isNone)).length ∧
    ∀ r ∈ orchestrate demoProbe 50 [demoNodeA, demoNodeB],
      ∃ s ∈ [demoNodeA, demoNodeB], ∃ avg, demoProbe s = some avg ∧
        r = mkResult s avg 50 :=
  orchestrator_tolerates_probe_failures (some 50) demoProbe [demoNodeA, demoNodeB] 50
    rfl (by decide)

/-- C8: every `Result` the orchestrator constructs has `Delta ≥ 0` (it is
the absolute difference between the node average RTT and the target RTT)
and `Distance ≥ 0` (the delta converted through `rttToDistance`); in the
functional embedding neither field is ever mutated after `mkResult`
builds the record. -/
theorem measurement_invariants (probe : Server → Option ℤ) (t : ℤ)
    (servers : List Server) :
    ∀ r ∈ orchestrate probe t servers, 0 ≤ r.Delta ∧ 0 ≤ r.Distance := by
  intro r hr
  simp only [orchestrate, List.mem_filterMap] at hr
  obtain ⟨s, _, hmap⟩ := hr
  rw [Option.map_eq_some'] at hmap
  obtain ⟨avg, _, hmk⟩ := hmap
  subst hmk
  have hδ : 0 ≤ (mkResult s avg t).Delta := by
    simp only [mkResult]
    split <;> omega
  refine ⟨hδ, ?_⟩
  have hq : (0 : ℚ) ≤ ((mkResult s avg t).Delta : ℚ) := by exact_mod_cast hδ
  show 0 ≤ rttToDistance (mkResult s avg t).Delta
  unfold rttToDistance fiberSpeed speedOfLight
  have h9 : (0 : ℚ) ≤ ((mkResult s avg t).Delta : ℚ) / 1000000000 :=
    div_nonneg hq (by norm_num)
  have hf : (0 : ℚ) ≤ (299792.458 : ℚ) * 0.67 := by norm_num
  exact div_nonneg (mul_nonneg h9 hf) (by norm_num)

theorem measurement_invariants_witness :
    0 ≤ (mkResult demoNodeA 100 50).Delta ∧ 0 ≤ (mkResult demoNodeA 100 50).Distance :=
  measurement_invariants demoProbe 50 [demoNodeA, demoNodeB]
    (mkResult demoNodeA 100 50)
    (by simp [orchestrate, demoProbe, demoNodeA, demoNodeB])

lemma multilateral_take_eq (results : List Result) (N : ℤ)
    (h3 : 3 ≤ results.length) (hN : 1 ≤ N) :
    multilateralTriangulation results N
      = weightedMeanSpec (results.take (min N.toNat results.length)) := by
  have hn : (if N > (results.length : ℤ) then (results.length : ℤ) else N).toNat
      = min N.toNat results.length := by
    split <;> omega
  simp only [multilateralTriangulation, weightedMeanSpec, hn]
  rw [if_neg (by omega)]

/-- C6: for a result list of length ≥ 3 and requested count `N ≥ 1`, the
multilateration solver clamps `N` to the list length and returns exactly
the `1/(delta_ms+1)`-weighted arithmetic mean of the latitudes and of the
longitudes of the first `min N len` entries; in the concrete spec
scenario (top-2 entries with deltas 10 ms and 40 ms at Paris and London)
the weights are `1/11` and `1/41` and the output is the corresponding
weighted mean `(2569.702/52, 95.0344/52)`. -/
theorem multilateration_weighted_mean :
    (∀ (results : List Result) (N : ℤ), 3 ≤ results.length → 1 ≤ N →
      multilateralTriangulation results N
        = weightedMeanSpec (results.take (min N.toNat results.length))) ∧
    multiWeight 10000000 = 1 / 11 ∧ multiWeight 40000000 = 1 / 41 ∧
    multilateralTriangulation demoTop2 2 = (1284851 / 26000, 118793 / 65000) := by
  have h10 : durMilliseconds 10000000 = 10 := by decide
  have h40 : durMilliseconds 40000000 = 40 := by decide
  have hw10 : multiWeight 10000000 = 1 / 11 := by unfold multiWeight; rw [h10]; norm_num
  have hw40 : multiWeight 40000000 = 1 / 41 := by unfold multiWeight; rw [h40]; norm_num
  refine ⟨multilateral_take_eq, hw10, hw40, ?_⟩
  rw [multilateral_take_eq demoTop2 2 (by decide) (by decide)]
  have h2 : (2 : ℤ).toNat = 2 := rfl
  norm_num [demoTop2, weightedMeanSpec, hw10, hw40, h2]

theorem multilateration_weighted_mean_witness :
    multilateralTriangulation demoTop2 2
      = weightedMeanSpec (demoTop2.take (min (2 : ℤ).toNat demoTop2.length)) :=
  multilateration_weighted_mean.1 demoTop2 2 (by decide) (by decide)

lemma multiWeight_pos {d : ℤ} (hd : 0 ≤ d) : 0 < multiWeight d := by
  unfold multiWeight durMilliseconds
  have h : (0 : ℤ) ≤ Int.tdiv d 1000000 := Int.tdiv_nonneg hd (by norm_num)
  have hq : (0 : ℚ) < (Int.tdiv d 1000000 : ℚ) + 1 := by
    have : (0 : ℚ) ≤ (Int.tdiv d 1000000 : ℚ) := by exact_mod_cast h
    linarith
  exact one_div_pos.mpr hq

lemma weighted_avg_bounds (entries : List Result) (v : Result → ℚ) (lo hi : ℚ)
    (hne : entries ≠ [])
    (hw : ∀ r ∈ entries, 0 < multiWeight r.Delta)
    (hbd : ∀ r ∈ entries, lo ≤ v r ∧ v r ≤ hi) :
    lo ≤ (entries.map (fun r => v r * multiWeight r.Delta)).sum
        / (entries.map (fun r => multiWeight r.Delta)).sum ∧
    (entries.map (fun r => v r * multiWeight r.Delta)).sum
        / (entries.map (fun r => multiWeight r.Delta)).sum ≤ hi := by
  have hW : 0 < (entries.map fun r => multiWeight r.Delta).sum := by
    apply List.sum_pos
    · intro x hx
      rw [List.mem_map] at hx
      obtain ⟨r, hr, rfl⟩ := hx
      exact hw r hr
    · cases entries with
      | nil => exact absurd rfl hne
      | cons a l => simp
  constructor
  · rw [le_div_iff₀ hW, ← List.sum_map_mul_left]
    exact List.sum_le_sum fun r hr =>
      mul_le_mul_of_nonneg_right (hbd r hr).1 (hw r hr).le
  · rw [div_le_iff₀ hW, ← List.sum_map_mul_left]
    exact List.sum_le_sum fun r hr =>
      mul_le_mul_of_nonneg_right (hbd r hr).2 (hw r hr).le

/-- C10: for a result list of length ≥ 3 with nonnegative deltas and a
requested count `N ≥ 1`, every per-entry weight of the multilateration
solver is strictly positive, the total weight is strictly positive (the
final divisions are well-defined), and the returned latitude and
longitude each lie inside any interval containing the latitudes
(respectively longitudes) of the first `min N len` entries — in
particular between their minimum and maximum. -/
theorem multilateration_output_bounds (results : List Result) (N : ℤ)
    (h3 : 3 ≤ results.length) (hN : 1 ≤ N)
    (hδ : ∀ r ∈ results, 0 ≤ r.Delta) :
    (∀ r ∈ results.take (min N.toNat results.length), 0 < multiWeight r.Delta) ∧
    0 < ((results.take (min N.toNat results.length)).map
          (fun r => multiWeight r.Delta)).sum ∧
    ∀ lo hi lo' hi',
      (∀ r ∈ results.take (min N.toNat results.length),
        lo ≤ r.Server.Lat ∧ r.Server.Lat ≤ hi) →
      (∀ r ∈ results.take (min N.toNat results.length),
        lo' ≤ r.Server.Lon ∧ r.Server.Lon ≤ hi') →
      lo ≤ (multilateralTriangulation results N).1 ∧
      (multilateralTriangulation results N).1 ≤ hi ∧
      lo' ≤ (multilateralTriangulation results N).2 ∧
      (multilateralTriangulation results N).2 ≤ hi' := by
  set entries := results.take (min N.toNat results.length) with hentries
  have hw : ∀ r ∈ entries, 0 < multiWeight r.Delta := fun r hr =>
    multiWeight_pos (hδ r (List.mem_of_mem_take hr))
  have hne : entries ≠ [] := by
    have hlen : entries.length = min N.toNat results.length := by
      rw [hentries, List.length_take]
      omega
    intro h
    rw [h] at hlen
    simp only [List.length_nil] at hlen
    omega
  have hW : 0 < (entries.map fun r => multiWeight r.Delta).sum := by
    apply List.sum_pos
    · intro x hx
      rw [List.mem_map] at hx
      obtain ⟨r, hr, rfl⟩ := hx
      exact hw r hr
    · cases hcase : entries with
      | nil => exact absurd hcase hne
      | cons a l => simp
  refine ⟨hw, hW, ?_⟩
  intro lo hi lo' hi' hlat hlon
  rw [multilateral_take_eq results N h3 hN]
  have hla := weighted_avg_bounds entries (fun r => r.Server.Lat) lo hi hne hw hlat
  have hlo := weighted_avg_bounds entries (fun r => r.Server.Lon) lo' hi' hne hw hlon
  exact ⟨hla.1, hla.2, hlo.1, hlo.2⟩

theorem multilateration_output_bounds_witness :
    40 ≤ (multilateralTriangulation demoInt3 2).1 ∧
    (multilateralTriangulation demoInt3 2).1 ≤ 52 ∧
    -1 ≤ (multilateralTriangulation demoInt3 2).2 ∧
    (multilateralTriangulation demoInt3 2).2 ≤ 3 :=
  (multilateration_output_bounds demoInt3 2 (by decide) (by decide)
    (by decide)).2.2 40 52 (-1) 3 (by decide) (by decide)

/-- C7 counterexample: in the multilateration solver the delta enters the
weight only through its truncated millisecond value, so strictly
decreasing a delta from 10.5 ms to 10.2 ms leaves the weight unchanged
at `1/11` — it does not strictly increase it. -/
theorem weight_monotonicity_counterexample :
    (10200000 : ℤ) < 10500000 ∧ multiWeight 10500000 = multiWeight 10200000 := by
  constructor
  · decide
  · unfold multiWeight durMilliseconds
    norm_num [show Int.tdiv 10500000 1000000 = 10 from by decide,
      show Int.tdiv 10200000 1000000 = 10 from by decide]

/-- C7 (amended): in the trilateration solver, strictly decreasing a
(nonnegative) distance of a candidate strictly increases its weight; in the
multilateration solver, decreasing a (nonnegative) delta never decreases
the weight, and strictly increases it exactly when the truncated
millisecond value decreases — sub-millisecond decreases can leave the
weight, hence the influence, unchanged. -/
theorem weight_monotonicity_amended :
    (∀ d d' : ℝ, 0 ≤ d' → d' < d → triWeight d < triWeight d') ∧
    (∀ a b : ℤ, 0 ≤ b → b ≤ a → multiWeight a ≤ multiWeight b) ∧
    (∀ a b : ℤ, 0 ≤ b → durMilliseconds b < durMilliseconds a →
      multiWeight a < multiWeight b) := by
  refine ⟨?_, ?_, ?_⟩
  · intro d d' h0 hlt
    unfold triWeight
    exact one_div_lt_one_div_of_lt (by linarith) (by linarith)
  · intro a b hb hba
    have ha : (0 : ℤ) ≤ a := hb.trans hba
    have hms : durMilliseconds b ≤ durMilliseconds a := by
      unfold durMilliseconds
      rw [Int.tdiv_eq_ediv hb (by norm_num), Int.tdiv_eq_ediv ha (by norm_num)]
      exact Int.ediv_le_ediv (by norm_num) hba
    have hmsb : (0 : ℤ) ≤ durMilliseconds b :=
      Int.tdiv_nonneg hb (by norm_num)
    unfold multiWeight
    apply one_div_le_one_div_of_le
    · have : (0 : ℚ) ≤ (durMilliseconds b : ℚ) := by exact_mod_cast hmsb
      linarith
    · have : (durMilliseconds b : ℚ) ≤ (durMilliseconds a : ℚ) := by exact_mod_cast hms
      linarith
  · intro a b hb hms
    have hmsb : (0 : ℤ) ≤ durMilliseconds b :=
      Int.tdiv_nonneg hb (by norm_num)
    unfold multiWeight
    apply one_div_lt_one_div_of_lt
    · have : (0 : ℚ) ≤ (durMilliseconds b : ℚ) := by exact_mod_cast hmsb
      linarith
    · have : (durMilliseconds b : ℚ) < (durMilliseconds a : ℚ) := by exact_mod_cast hms
      linarith

theorem weight_monotonicity_witness :
    triWeight 1 < triWeight 0 ∧
    multiWeight 2000000 ≤ multiWeight 1000000 ∧
    multiWeight 3000000 < multiWeight 0 :=
  ⟨weight_monotonicity_amended.1 1 0 le_rfl one_pos,
   weight_monotonicity_amended.2.1 2000000 1000000 (by decide) (by decide),
   weight_monotonicity_amended.2.2 3000000 0 le_rfl (by decide)⟩

/-- C3 counterexample: the ranking step is `sort.Slice`, whose contract
does not guarantee stability; for the two-element input
`[demoTieX, demoTieY]` with equal deltas, the reversed output
`[demoTieY, demoTieX]` is an admissible result of the sort even though it
swaps the original relative order of the two equal-delta measurements. -/
theorem ranking_stability_counterexample :
    rankRel [demoTieX, demoTieY] [demoTieY, demoTieX] ∧ demoTieX ≠ demoTieY := by
  refine ⟨⟨List.Perm.swap demoTieX demoTieY [], ?_⟩, by decide⟩
  decide

/-- C3 (amended): after ranking the deltas are non-decreasing and the
output is a permutation of the input, but `sort.Slice` leaves the
relative order of equal-delta measurements unspecified; whenever the
deltas are pairwise distinct, the ranked order is uniquely determined. -/
theorem ranking_deterministic_on_distinct (l l₁ l₂ : List Result)
    (hd : List.Pairwise (fun a b => a.Delta ≠ b.Delta) l)
    (h₁ : rankRel l l₁) (h₂ : rankRel l l₂) : l₁ = l₂ := by
  obtain ⟨p₁, s₁⟩ := h₁
  obtain ⟨p₂, s₂⟩ := h₂
  have hd₁ : List.Pairwise (fun a b : Result => a.Delta ≠ b.Delta) l₁ :=
    (List.Perm.pairwise_iff (fun h => h.symm) p₁).mpr hd
  have hd₂ : List.Pairwise (fun a b : Result => a.Delta ≠ b.Delta) l₂ :=
    (List.Perm.pairwise_iff (fun h => h.symm) p₂).mpr hd
  have t₁ : List.Sorted (fun a b : Result => a.Delta < b.Delta) l₁ :=
    List.Pairwise.imp (fun hab => lt_of_le_of_ne hab.1 hab.2) (s₁.and hd₁)
  have t₂ : List.Sorted (fun a b : Result => a.Delta < b.Delta) l₂ :=
    List.Pairwise.imp (fun hab => lt_of_le_of_ne hab.1 hab.2) (s₂.and hd₂)
  haveI : IsAntisymm Result (fun a b => a.Delta < b.Delta) :=
    ⟨fun a b h h' => absurd (h.trans h') (lt_irrefl _)⟩
  exact List.eq_of_perm_of_sorted (p₁.trans p₂.symm) t₁ t₂

theorem ranking_deterministic_on_distinct_witness :
    ([demoD1, demoD2] : List Result) = [demoD1, demoD2] :=
  ranking_deterministic_on_distinct [demoD2, demoD1] [demoD1, demoD2]
    [demoD1, demoD2] (by decide) (by decide) (by decide)

lemma countOf_cons (c d : String) (n : ℕ) (tl : List (String × ℕ)) :
    countOf c ((d, n) :: tl) = (if d = c then n else 0) + countOf c tl := by
  by_cases h : d = c <;> simp [countOf, h]

lemma countOf_addCountry (acc : List (String × ℕ)) (c c' : String) :
    countOf c (addCountry acc c') = countOf c acc + (if c' = c then 1 else 0) := by
  induction acc with
  | nil =>
    by_cases h : c' = c <;> simp [addCountry, countOf, h]
  | cons hd tl ih =>
    obtain ⟨d, n⟩ := hd
    simp only [addCountry]
    by_cases h : d = c'
    · subst h
      rw [if_pos rfl, countOf_cons, countOf_cons]
      by_cases h2 : d = c
      all_goals simp [h2]
      all_goals omega
    · rw [if_neg h, countOf_cons, countOf_cons, ih]
      omega

lemma countOf_countryCounts (results : List Result) (c : String) :
    countOf c (countryCounts results)
      = (results.filter (fun r => r.Server.Country = c)).length := by
  have key : ∀ (l : List Result) (acc : List (String × ℕ)),
      countOf c (l.foldl (fun a r => addCountry a r.Server.Country) acc)
        = countOf c acc + (l.filter (fun r => r.Server.Country = c)).length := by
    intro l
    induction l with
    | nil => intro acc; simp
    | cons r tl ih =>
      intro acc
      simp only [List.foldl_cons, List.filter_cons]
      rw [ih, countOf_addCountry]
      by_cases h : r.Server.Country = c
      all_goals simp [h]
      all_goals omega
  have h0 : countOf c ([] : List (String × ℕ)) = 0 := rfl
  have := key results []
  rw [h0] at this
  simpa [countryCounts] using this

/-- C9 counterexample: with two results from countries "France" then "UK"
(tallies tied at one each) the presentation relation admits the output
`[UK, France]`, which does *not* keep the tie in original encounter order
(the Go code reads the tallies out of a map in randomized order and sorts
with the unstable `sort.Slice`); moreover the reported mean latency over
RTTs 1 ns and 2 ns is the truncated quotient 1 ns, not the arithmetic
mean 1.5 ns. -/
theorem statistics_counterexample :
    statsPresentRel demoStats [("UK", 1), ("France", 1)] ∧
    countryCounts demoStats = [("France", 1), ("UK", 1)] ∧
    avgRTTStat demoStats = 1 ∧ avgRTTStat demoStats * 2 ≠ 3 := by
  refine ⟨⟨List.Perm.swap _ _ _, ?_⟩, by decide, by decide, by decide⟩
  decide

/-- C9 (amended): the summary step is a no-op on empty input; the tally
recorded for each country label equals the number of measurements with
that label (the tallies are presented in some descending-by-count order,
ties in unspecified order); and the reported mean latency is the
truncated integer quotient of the total latency by the count — the exact
arithmetic mean whenever the count divides the total. -/
theorem statistics_amended :
    summarize ([] : List Result) = none ∧
    (∀ (results : List Result) (c : String),
      countOf c (countryCounts results)
        = (results.filter (fun r => r.Server.Country = c)).length) ∧
    (∀ results : List Result,
      (results.length : ℤ) ∣ (results.map (fun r => r.Server.AvgRTT)).sum →
      avgRTTStat results * results.length
        = (results.map (fun r => r.Server.AvgRTT)).sum) := by
  refine ⟨rfl, countOf_countryCounts, ?_⟩
  intro results hdvd
  unfold avgRTTStat
  exact Int.tdiv_mul_cancel hdvd

theorem statistics_amended_witness :
    countOf "France" (countryCounts demoStats)
      = (demoStats.filter (fun r => r.Server.Country = "France")).length ∧
    avgRTTStat demoInt3 * demoInt3.length
      = (demoInt3.map (fun r => r.Server.AvgRTT)).sum :=
  ⟨statistics_amended.2.1 demoStats "France",
   statistics_amended.2.2 demoInt3 (by decide)⟩

/-- C2 counterexample: with only two results, the trilateration path of
`displayTriangulation` returns early after printing an error and produces
*no* `Location` at all — it does not return a `(0,0)` sentinel
`Location` as the claim states. -/
theorem degenerate_counterexample : triangulationLocations demoPair = none := rfl

/-- C2 (amended): for fewer than 3 results the multilateration solver
returns the `(0,0)` sentinel and the trilateration path refuses to run,
producing no `Location`; neither path raises or panics (both are total
here). -/
theorem degenerate_inputs_amended (results : List Result) (N : ℤ)
    (h : results.length < 3) :
    multilateralTriangulation results N = (0, 0) ∧
    triangulationLocations results = none := by
  constructor
  · unfold multilateralTriangulation
    rw [if_pos h]
  · rcases results with _ | ⟨a, _ | ⟨b, _ | ⟨c, rest⟩⟩⟩
    · rfl
    · rfl
    · rfl
    · exfalso
      simp only [List.length_cons] at h
      omega

theorem degenerate_inputs_amended_witness :
    multilateralTriangulation demoPair 10 = (0, 0) ∧
    triangulationLocations demoPair = none :=
  degenerate_inputs_amended demoPair 10 (by decide)

lemma atan2_cos_sin (r θ : ℝ) (hr : 0 < r)
    (hθ : θ ∈ Set.Ioc (-Real.pi) Real.pi) :
    atan2 (r * Real.sin θ) (r * Real.cos θ) = θ := by
  unfold atan2
  have key : ((r * Real.cos θ : ℝ) : ℂ) + ((r * Real.sin θ : ℝ) : ℂ) * Complex.I
      = (r : ℂ) * (Complex.cos (θ : ℂ) + Complex.sin (θ : ℂ) * Complex.I) := by
    rw [Complex.ofReal_mul, Complex.ofReal_mul, Complex.ofReal_cos, Complex.ofReal_sin]
    ring
  rw [key, Complex.arg_real_mul _ hr, Complex.arg_cos_add_sin_mul_I hθ]

/-- In the exact-real idealization of the geometry kernel, converting a
geographic point to Cartesian and back reproduces `(lat, lon)` exactly
for `lat` strictly inside `(-90, 90)` and `lon` in `(-180, 180]`.  On the
closed-rectangle boundary this idealization and the `float64` program
diverge: with exact reals the pole makes `cos latRad` exactly `0` and the
longitude collapses (see `geoRoundTrip_pole_in_idealization`), whereas
the program takes `cos` of the *rounded* angle, whose tiny nonzero
residue keeps the longitude recoverable there; the boundary behaviour of
the program is therefore a floating-point rounding matter that this
embedding does not model. -/
theorem geoRoundTrip_exact_on_interior (lat lon : ℝ) (h1 : -90 < lat) (h2 : lat < 90)
    (h3 : -180 < lon) (h4 : lon ≤ 180) :
    geoRoundTrip lat lon = (lat, lon) := by
  have hπ : (0 : ℝ) < Real.pi := Real.pi_pos
  have hR : (0 : ℝ) < earthRadius := by unfold earthRadius; norm_num
  have hlatlb : -(Real.pi / 2) < lat * Real.pi / 180 := by
    nlinarith [mul_pos (show (0 : ℝ) < lat + 90 by linarith) hπ]
  have hlatub : lat * Real.pi / 180 < Real.pi / 2 := by
    nlinarith [mul_pos (show (0 : ℝ) < 90 - lat by linarith) hπ]
  have hlonlb : -Real.pi < lon * Real.pi / 180 := by
    nlinarith [mul_pos (show (0 : ℝ) < lon + 180 by linarith) hπ]
  have hlonub : lon * Real.pi / 180 ≤ Real.pi := by
    nlinarith [mul_nonneg (show (0 : ℝ) ≤ 180 - lon by linarith) hπ.le]
  have hcos : 0 < Real.cos (lat * Real.pi / 180) :=
    Real.cos_pos_of_mem_Ioo ⟨hlatlb, hlatub⟩
  have hrc : 0 < earthRadius * Real.cos (lat * Real.pi / 180) := mul_pos hR hcos
  simp only [geoRoundTrip, geoToCartesian, cartesianToGeo]
  have hxy : earthRadius * Real.cos (lat * Real.pi / 180) * Real.cos (lon * Real.pi / 180) *
        (earthRadius * Real.cos (lat * Real.pi / 180) * Real.cos (lon * Real.pi / 180)) +
        earthRadius * Real.cos (lat * Real.pi / 180) * Real.sin (lon * Real.pi / 180) *
        (earthRadius * Real.cos (lat * Real.pi / 180) * Real.sin (lon * Real.pi / 180))
      = (earthRadius * Real.cos (lat * Real.pi / 180)) ^ 2 := by
    have hpy := Real.sin_sq_add_cos_sq (lon * Real.pi / 180)
    linear_combination (earthRadius * Real.cos (lat * Real.pi / 180)) ^ 2 * hpy
  rw [hxy, Real.sqrt_sq hrc.le]
  have hlon : atan2
      (earthRadius * Real.cos (lat * Real.pi / 180) * Real.sin (lon * Real.pi / 180))
      (earthRadius * Real.cos (lat * Real.pi / 180) * Real.cos (lon * Real.pi / 180))
      = lon * Real.pi / 180 := by
    rw [mul_assoc earthRadius _ (Real.sin _), mul_assoc earthRadius _ (Real.cos _),
      ← mul_assoc, ← mul_assoc]
    exact atan2_cos_sin _ _ hrc ⟨hlonlb, hlonub⟩
  have hlat : atan2 (earthRadius * Real.sin (lat * Real.pi / 180))
      (earthRadius * Real.cos (lat * Real.pi / 180)) = lat * Real.pi / 180 :=
    atan2_cos_sin earthRadius _ hR ⟨by linarith, by linarith⟩
  rw [hlon, hlat]
  have e1 : lat * Real.pi / 180 * 180 / Real.pi = lat := by
    field_simp
  have e2 : lon * Real.pi / 180 * 180 / Real.pi = lon := by
    field_simp
  rw [e1, e2]

/-- In the exact-real idealization — not in the `float64` program, whose
rounding residues keep the pole longitude recoverable — the round trip at
the north pole collapses the longitude to `0`. -/
theorem geoRoundTrip_pole_in_idealization : (geoRoundTrip 90 45).2 = 0 := by
  have h90 : (90 : ℝ) * Real.pi / 180 = Real.pi / 2 := by ring
  simp only [geoRoundTrip, geoToCartesian, cartesianToGeo, h90,
    Real.cos_pi_div_two, atan2]
  norm_num [Complex.arg_zero]

lemma cartesianToGeo_pos_x (x : ℝ) (hx : 0 < x) : cartesianToGeo x 0 0 = (0, 0) := by
  simp only [cartesianToGeo, atan2]
  have hyp : Real.sqrt (x * x + 0 * 0) = x := by
    rw [show x * x + 0 * 0 = x ^ 2 by ring]
    exact Real.sqrt_sq hx.le
  rw [hyp]
  simp [Complex.arg_ofReal_of_nonneg hx.le]

lemma trilaterate_eval (s1 s2 s3 : Server) (d : ℝ) (hd : 0 ≤ d)
    (hc1 : geoToCartesian (s1.Lat : ℝ) (s1.Lon : ℝ) = (earthRadius, 0, 0))
    (hc2 : geoToCartesian (s2.Lat : ℝ) (s2.Lon : ℝ) = (0, earthRadius, 0))
    (hc3 : geoToCartesian (s3.Lat : ℝ) (s3.Lon : ℝ) = (0, -earthRadius, 0)) :
    trilaterate s1 s2 s3 d d d = ⟨0, 0⟩ := by
  have hR : (0 : ℝ) < earthRadius := by unfold earthRadius; norm_num
  have hw : 0 < triWeight d := by
    unfold triWeight
    exact one_div_pos.mpr (by linarith)
  simp only [trilaterate, hc1, hc2, hc3]
  have hxE : (earthRadius * triWeight d + 0 * triWeight d + 0 * triWeight d) /
      (triWeight d + triWeight d + triWeight d) = earthRadius / 3 := by
    rw [show earthRadius * triWeight d + 0 * triWeight d + 0 * triWeight d
        = earthRadius * triWeight d by ring,
      show triWeight d + triWeight d + triWeight d = 3 * triWeight d by ring,
      mul_comm (3 : ℝ) (triWeight d), ← div_div, mul_div_assoc,
      div_self hw.ne', mul_one]
  have hyE : (0 * triWeight d + earthRadius * triWeight d + -earthRadius * triWeight d) /
      (triWeight d + triWeight d + triWeight d) = 0 := by
    rw [show 0 * triWeight d + earthRadius * triWeight d + -earthRadius * triWeight d
        = 0 by ring, zero_div]
  have hzE : (0 * triWeight d + 0 * triWeight d + 0 * triWeight d) /
      (triWeight d + triWeight d + triWeight d) = 0 := by
    rw [show 0 * triWeight d + 0 * triWeight d + 0 * triWeight d = 0 by ring, zero_div]
  rw [hxE, hyE, hzE]
  have hnrm : Real.sqrt (earthRadius / 3 * (earthRadius / 3) + 0 * 0 + 0 * 0)
      = earthRadius / 3 := by
    rw [show earthRadius / 3 * (earthRadius / 3) + 0 * 0 + 0 * 0
        = (earthRadius / 3) ^ 2 by ring]
    exact Real.sqrt_sq (by positivity)
  rw [hnrm]
  have hXX : earthRadius / 3 / (earthRadius / 3) * earthRadius = earthRadius := by
    rw [div_self (by positivity), one_mul]
  have hZZ : (0 : ℝ) / (earthRadius / 3) * earthRadius = 0 := by
    rw [zero_div, zero_mul]
  rw [hXX, hZZ, cartesianToGeo_pos_x earthRadius hR]

/-- C5: with three nodes on the equator at longitudes 0, 90 and -90 and a
common distance estimate of 1000 km, every trilateration weight is
`1/1001` (`1/(distance+1)`), and the weighted Cartesian centroid,
rescaled to the sphere and converted back, is exactly the location
`(0, 0)`. -/
theorem trilateration_concrete :
    triWeight 1000 = 1 / 1001 ∧
    trilaterate demoEqA demoEqB demoEqC 1000 1000 1000 = ⟨0, 0⟩ := by
  have h90 : (90 : ℝ) * Real.pi / 180 = Real.pi / 2 := by ring
  have e1 : geoToCartesian ((demoEqA.Lat : ℚ) : ℝ) ((demoEqA.Lon : ℚ) : ℝ)
      = (earthRadius, 0, 0) := by
    simp [demoEqA, geoToCartesian]
  have e2 : geoToCartesian ((demoEqB.Lat : ℚ) : ℝ) ((demoEqB.Lon : ℚ) : ℝ)
      = (0, earthRadius, 0) := by
    simp [demoEqB, geoToCartesian, h90, Real.cos_pi_div_two, Real.sin_pi_div_two]
  have hcs : Real.cos (-(90 * Real.pi) / 180) = 0 := by
    rw [show -(90 * Real.pi) / 180 = -(Real.pi / 2) by ring, Real.cos_neg,
      Real.cos_pi_div_two]
  have hss : Real.sin (-(90 * Real.pi) / 180) = -1 := by
    rw [show -(90 * Real.pi) / 180 = -(Real.pi / 2) by ring, Real.sin_neg,
      Real.sin_pi_div_two]
  have e3 : geoToCartesian ((demoEqC.Lat : ℚ) : ℝ) ((demoEqC.Lon : ℚ) : ℝ)
      = (0, -earthRadius, 0) := by
    simp [demoEqC, geoToCartesian, hcs, hss]
  exact ⟨by unfold triWeight; norm_num,
    trilaterate_eval demoEqA demoEqB demoEqC 1000 (by norm_num) e1 e2 e3⟩

end Triangula
